import Mathlib

/-!
Shallow embedding of `adala/environments/static_env.py` (`StaticEnvironment`).

Modelling conventions:
* A pandas `Series` is a list of `(index label, cell)` pairs; `none` models `NaN`.
  Index labels are `Nat`; cell values are `String` (the engine compares label
  strings).
* A pandas `DataFrame` is an index list together with named columns; each column
  stores one cell per index position.
* Python exceptions become an `Except PyError` result; `KeyError`,
  `ValueError` and `NotImplementedError` are the three kinds the module raises.
* `fuzzy_match` is imported from `adala.utils.matching` (an external
  collaborator, not part of this module); it is passed in as an abstract
  per-row function of the threshold and the two values.
* `predictions.sample(n=...)` draws a uniform random subset without
  replacement; the embedding keeps the pandas error condition (`n` larger than
  the population raises `ValueError`) and fixes the random draw
  deterministically to the first `n` rows.
-/

namespace Adala

/-- A pandas Series: ordered `(index label, cell)` pairs, `none` for `NaN`. -/
abbrev Series (α : Type) : Type := List (Nat × Option α)

/-- Cell of a series at label `k`: the value stored at the first entry with that
label, `none` when the label is absent or the stored cell is `NaN`. -/
def scell {α : Type} (s : Series α) (k : Nat) : Option α :=
  match s.find? (fun e => e.1 == k) with
  | some e => e.2
  | none => none

/-- Index labels of a series, in order. -/
def skeys {α : Type} (s : Series α) : List Nat := s.map Prod.fst

/-- A pandas DataFrame: a row index plus named columns of cells. -/
structure DataFrame where
  index : List Nat
  cols : List (String × List (Option String))
deriving DecidableEq, Repr

/-- Column names of the frame, in order (`df.columns`). -/
def DataFrame.columns (df : DataFrame) : List String := df.cols.map Prod.fst

/-- Column extraction `df[c]`: the named column paired with the frame's index,
or `none` when no column has that name (pandas raises `KeyError`). -/
def DataFrame.col (df : DataFrame) (c : String) : Option (Series String) :=
  (df.cols.find? (fun e => e.1 == c)).map (fun e => df.index.zip e.2)

/-- First `n` rows of the frame: the deterministic draw standing in for
`df.sample(n)` once the size check has passed. -/
def DataFrame.takeRows (df : DataFrame) (n : Nat) : DataFrame :=
  { index := df.index.take n
    cols := df.cols.map (fun e => (e.1, e.2.take n)) }

/-- The Python exception kinds raised by `static_env.py`. -/
inductive PyError
  | keyError (key : String)
  | valueError (msg : String)
  | notImplementedError (msg : String)
deriving DecidableEq, Repr

/-- `matching_function : Union[str, Callable]`. -/
inductive MatchingFunction
  | named (s : String)
  | custom (f : String → String → Bool)

/-- The `StaticEnvironment` configuration: ground-truth frame, output-to-column
mapping, matching function and threshold, with the source's defaults. -/
structure StaticEnvironment where
  df : DataFrame
  ground_truth_columns : List (String × String) := []
  matching_function : MatchingFunction := .named "fuzzy"
  matching_threshold : ℚ := 9 / 10

/-- `self.ground_truth_columns.get(pred_column, pred_column)`. -/
def gtColumnOf (env : StaticEnvironment) (pred_column : String) : String :=
  match env.ground_truth_columns.find? (fun e => e.1 == pred_column) with
  | some e => e.2
  | none => pred_column

/-- Shared index of `gt.align(pred)` (outer join): labels of `gt` followed by
the labels of `pred` not already present. -/
def alignKeys (gt pred : Series String) : List Nat :=
  skeys gt ++ (skeys pred).filter (fun k => !(skeys gt).contains k)

/-- Rows surviving `nonnull_index = gt.notnull() & pred.notnull()` after the
outer alignment: label with both (non-null) values. -/
def bothNonnullPairs (gt pred : Series String) : List (Nat × String × String) :=
  (alignKeys gt pred).filterMap (fun k =>
    match scell gt k, scell pred k with
    | some g, some p => some (k, g, p)
    | _, _ => none)

/-- Resolution of the matching function: `"exact"` is structural equality,
`"fuzzy"` delegates to the external `fuzzy_match` at the configured threshold,
any other name raises `NotImplementedError`, and a callable is applied
row-by-row via `gt.combine(pred, ...)`. -/
def resolveMatching (mf : MatchingFunction) (threshold : ℚ)
    (fuzzyFn : ℚ → String → String → Bool) :
    Except PyError (String → String → Bool) :=
  match mf with
  | .named s =>
      if s = "exact" then .ok (fun g p => g == p)
      else if s = "fuzzy" then .ok (fuzzyFn threshold)
      else .error (.notImplementedError ("Unknown matching function " ++ s))
  | .custom f => .ok f

/-- Feedback string for a correct prediction. -/
def correctFeedback : String := "Prediction is correct."

/-- Feedback string for an incorrect prediction, quoting the reference value. -/
def incorrectFeedback (g : String) : String :=
  "Prediction is incorrect. Correct answer: \"" ++ g ++ "\""

/-- One iteration of the `for pred_column in pred_columns` loop: extract the
prediction column (`KeyError` when absent), resolve the ground-truth column
(all-`NaN` match and feedback over the prediction index when it is missing from
`self.df`), otherwise align, filter to non-null pairs, compute the match with
the resolved matching function and synthesize the feedback strings. -/
def processField (env : StaticEnvironment) (fuzzyFn : ℚ → String → String → Bool)
    (predictions : DataFrame) (pred_column : String) :
    Except PyError (Series Bool × Series String) :=
  match predictions.col pred_column with
  | none => .error (.keyError pred_column)
  | some pred =>
    match env.df.col (gtColumnOf env pred_column) with
    | none =>
        .ok (pred.map (fun e => (e.1, (none : Option Bool))),
             pred.map (fun e => (e.1, (none : Option String))))
    | some gt =>
      match resolveMatching env.matching_function env.matching_threshold fuzzyFn with
      | .error e => .error e
      | .ok fn =>
        let pairs := bothNonnullPairs gt pred
        .ok (pairs.map (fun e => (e.1, some (fn e.2.1 e.2.2))),
             pairs.map (fun e => (e.1, some (if fn e.2.1 e.2.2 then correctFeedback
                                             else incorrectFeedback e.2.1))))

/-- The whole per-field loop, propagating the first raised exception. -/
def evalFields (env : StaticEnvironment) (fuzzyFn : ℚ → String → String → Bool)
    (predictions : DataFrame) :
    List String → Except PyError (List (String × Series Bool × Series String))
  | [] => .ok []
  | f :: rest =>
    match processField env fuzzyFn predictions f with
    | .error e => .error e
    | .ok r =>
      match evalFields env fuzzyFn predictions rest with
      | .error e => .error e
      | .ok rs => .ok ((f, r.1, r.2) :: rs)

/-- `s.reindex(idx)`: one entry per label of `idx`, `NaN`-filled where the
series has no value. -/
def reindexSeries {α : Type} (s : Series α) (idx : List Nat) : Series α :=
  idx.map (fun k => (k, scell s k))

/-- The pandas message for sampling without replacement beyond the population. -/
def sampleErrorMsg : String :=
  "Cannot take a larger sample than population when replace=False"

/-- The `predictions.sample(n=num_feedbacks)` step: identity when no sample
size is given; with `n` larger than the population pandas raises `ValueError`;
otherwise a subset of `n` rows (modelled as the first `n`). -/
def sampleStep (predictions : DataFrame) (num_feedbacks : Option Nat) :
    Except PyError DataFrame :=
  match num_feedbacks with
  | none => .ok predictions
  | some n =>
      if n ≤ predictions.index.length then .ok (predictions.takeRows n)
      else .error (.valueError sampleErrorMsg)

/-- The value returned by `get_feedback`: the shared row index and the two
result tables, one match column and one feedback column per output field. -/
structure EnvironmentFeedback where
  index : List Nat
  matchTable : List (String × Series Bool)
  feedbackTable : List (String × Series String)
deriving DecidableEq, Repr

/-- `StaticEnvironment.get_feedback`: optional sampling, the per-field loop,
then reindexing every per-field series onto the (possibly sampled)
predictions index. The output field names come from
`skills.get_skill_outputs()` (an external collaborator) and are passed as
`pred_columns`. -/
def getFeedback (env : StaticEnvironment) (fuzzyFn : ℚ → String → String → Bool)
    (pred_columns : List String) (predictions : DataFrame)
    (num_feedbacks : Option Nat) : Except PyError EnvironmentFeedback :=
  match sampleStep predictions num_feedbacks with
  | .error e => .error e
  | .ok preds =>
    match evalFields env fuzzyFn preds pred_columns with
    | .error e => .error e
    | .ok rs =>
      .ok { index := preds.index
            matchTable := rs.map (fun r => (r.1, reindexSeries r.2.1 preds.index))
            feedbackTable := rs.map (fun r => (r.1, reindexSeries r.2.2 preds.index)) }

/-- Cell of the match table for field `f` at row `r`; `none` is the `unknown`
sentinel. -/
def EnvironmentFeedback.matchCell (fb : EnvironmentFeedback) (f : String)
    (r : Nat) : Option Bool :=
  match fb.matchTable.find? (fun e => e.1 == f) with
  | some e => scell e.2 r
  | none => none

/-- Cell of the feedback table for field `f` at row `r`; `none` is the
`unknown` sentinel. -/
def EnvironmentFeedback.feedbackCell (fb : EnvironmentFeedback) (f : String)
    (r : Nat) : Option String :=
  match fb.feedbackTable.find? (fun e => e.1 == f) with
  | some e => scell e.2 r
  | none => none

/-- `StaticEnvironment.get_data_batch`: the full ground-truth frame, or a
sample of `batch_size` rows with the same pandas size check. -/
def getDataBatch (env : StaticEnvironment) (batch_size : Option Nat) :
    Except PyError DataFrame :=
  match batch_size with
  | none => .ok env.df
  | some n =>
      if n ≤ env.df.index.length then .ok (env.df.takeRows n)
      else .error (.valueError sampleErrorMsg)

/-- `StaticEnvironment.save`: unconditionally raises `NotImplementedError`. -/
def StaticEnvironment.save (_ : StaticEnvironment) : Except PyError Unit :=
  .error (.notImplementedError "StaticEnvironment does not support save/restore.")

/-- `StaticEnvironment.restore`: unconditionally raises `NotImplementedError`. -/
def StaticEnvironment.restore (_ : StaticEnvironment) : Except PyError Unit :=
  .error (.notImplementedError "StaticEnvironment does not support save/restore.")

/-- Reference frame of the spec's worked example. -/
def exampleDf : DataFrame :=
  { index := [1, 2], cols := [("label", [some "cat", some "dog"])] }

/-- Predictions frame of the spec's worked example. -/
def examplePreds : DataFrame :=
  { index := [1, 2], cols := [("label", [some "cat", some "doge"])] }

/-- A trivial stand-in for the external fuzzy matcher at concrete inputs. -/
def constFuzzy : ℚ → String → String → Bool := fun _ _ _ => true

/-- Environment over the worked example with the exact policy. -/
def exactEnv : StaticEnvironment :=
  { df := exampleDf, matching_function := .named "exact" }

/-- Environment over the worked example with an unsupported policy name. -/
def regexEnv : StaticEnvironment :=
  { df := exampleDf, matching_function := .named "regex" }

/-- Result of evaluating the worked example with the exact policy. -/
def exampleRes : EnvironmentFeedback :=
  { index := [1, 2]
    matchTable := [("label", [(1, some true), (2, some false)])]
    feedbackTable := [("label",
      [(1, some "Prediction is correct."),
       (2, some "Prediction is incorrect. Correct answer: \"dog\"")])] }

/-- Predictions frame whose `color` field has no reference column. -/
def colorPreds : DataFrame :=
  { index := [1, 2], cols := [("color", [some "red", some "blue"])] }

/-- Result of evaluating `color` against a reference frame lacking it. -/
def unknownColorRes : EnvironmentFeedback :=
  { index := [1, 2]
    matchTable := [("color", [(1, none), (2, none)])]
    feedbackTable := [("color", [(1, none), (2, none)])] }

/-- Reference frame with a null cell and a row the predictions lack. -/
def mixedDf : DataFrame :=
  { index := [1, 2, 3], cols := [("label", [some "cat", none, some "dog"])] }

/-- Predictions with a row the reference lacks. -/
def mixedPreds : DataFrame :=
  { index := [1, 2, 4], cols := [("label", [some "cat", some "x", some "y"])] }

/-- Environment over `mixedDf` with the exact policy. -/
def mixedEnv : StaticEnvironment :=
  { df := mixedDf, matching_function := .named "exact" }

/-- Result of evaluating `mixedPreds` against `mixedEnv`. -/
def mixedRes : EnvironmentFeedback :=
  { index := [1, 2, 4]
    matchTable := [("label", [(1, some true), (2, none), (4, none)])]
    feedbackTable := [("label",
      [(1, some "Prediction is correct."), (2, none), (4, none)])] }

theorem scell_map_entry {α β : Type} (l : List (Nat × β)) (G : Nat × β → Option α)
    (r : Nat) :
    scell (l.map (fun e => (e.1, G e))) r =
      (l.find? (fun e => e.1 == r)).elim none G := by
  induction l with
  | nil => rfl
  | cons a t ih =>
    rcases eq_or_ne a.1 r with h | h
    · simp [scell, List.find?, h]
    · have hb : (a.1 == r) = false := by simp [h]
      simp only [List.map_cons, scell, List.find?, hb, cond_false] at ih ⊢
      exact ih

theorem scell_const_none {α β : Type} (l : List (Nat × β)) (r : Nat) :
    scell (l.map (fun e => (e.1, (none : Option α)))) r = none := by
  rw [scell_map_entry l (fun _ => (none : Option α)) r]
  cases l.find? (fun e => e.1 == r) <;> rfl

theorem scell_reindex {α : Type} (s : Series α) (idx : List Nat) (r : Nat) :
    scell (reindexSeries s idx) r = if r ∈ idx then scell s r else none := by
  induction idx with
  | nil => rfl
  | cons k t ih =>
    rcases eq_or_ne k r with h | h
    · subst h
      simp [reindexSeries, scell, List.find?]
    · have hb : (k == r) = false := by simp [h]
      have hstep : scell (reindexSeries s (k :: t)) r = scell (reindexSeries s t) r := by
        simp [reindexSeries, scell, List.find?, hb]
      have hmem : (r ∈ k :: t) ↔ (r ∈ t) := by
        constructor
        · intro hm
          rcases List.mem_cons.mp hm with h1 | h1
          · exact absurd h1.symm h
          · exact h1
        · exact fun hm => List.mem_cons_of_mem _ hm
      rw [hstep, ih]
      by_cases hq : r ∈ t
      · rw [if_pos hq, if_pos (hmem.mpr hq)]
      · rw [if_neg hq, if_neg (fun hc => hq (hmem.mp hc))]

theorem mem_skeys_of_scell {α : Type} {s : Series α} {r : Nat} {v : α}
    (h : scell s r = some v) : r ∈ skeys s := by
  rw [scell] at h
  cases hf : s.find? (fun e => e.1 == r) with
  | none => rw [hf] at h; exact absurd h (by simp)
  | some e =>
    have he : e ∈ s := List.mem_of_find?_eq_some hf
    have h1 : e.1 = r := by simpa using List.find?_some hf
    subst h1
    exact List.mem_map.mpr ⟨e, he, rfl⟩

theorem mem_alignKeys_right {gt pred : Series String} {r : Nat}
    (h : r ∈ skeys pred) : r ∈ alignKeys gt pred := by
  by_cases hg : r ∈ skeys gt
  · exact List.mem_append_left _ hg
  · refine List.mem_append_right _ (List.mem_filter.mpr ⟨h, ?_⟩)
    simp [hg]

theorem bothNonnullPairs_mem {gt pred : Series String} {e : Nat × String × String}
    (h : e ∈ bothNonnullPairs gt pred) :
    scell gt e.1 = some e.2.1 ∧ scell pred e.1 = some e.2.2 := by
  rw [bothNonnullPairs] at h
  rcases List.mem_filterMap.mp h with ⟨k, _, hk⟩
  cases hg : scell gt k with
  | none => rw [hg] at hk; exact absurd hk (by simp)
  | some g =>
    cases hp : scell pred k with
    | none => rw [hg, hp] at hk; exact absurd hk (by simp)
    | some p =>
      rw [hg, hp] at hk
      injection hk with hk
      subst hk
      exact ⟨hg, hp⟩

theorem find?_bothNonnullPairs {gt pred : Series String} {r : Nat} {g p : String}
    (hg : scell gt r = some g) (hp : scell pred r = some p) :
    (bothNonnullPairs gt pred).find? (fun e => e.1 == r) = some (r, g, p) := by
  have hmem : (r, g, p) ∈ bothNonnullPairs gt pred := by
    rw [bothNonnullPairs]
    refine List.mem_filterMap.mpr ⟨r, mem_alignKeys_right (mem_skeys_of_scell hp), ?_⟩
    rw [hg, hp]
  have hsome : ((bothNonnullPairs gt pred).find? (fun e => e.1 == r)).isSome :=
    List.find?_isSome.mpr ⟨(r, g, p), hmem, by simp⟩
  cases hf : (bothNonnullPairs gt pred).find? (fun e => e.1 == r) with
  | none => rw [hf] at hsome; exact absurd hsome (by simp)
  | some e =>
    obtain ⟨e1, e2, e3⟩ := e
    have he := bothNonnullPairs_mem (List.mem_of_find?_eq_some hf)
    have h1 : e1 = r := by simpa using List.find?_some hf
    subst h1
    have h2 : g = e2 := Option.some.inj (hg.symm.trans he.1)
    have h3 : p = e3 := Option.some.inj (hp.symm.trans he.2)
    subst h2
    subst h3
    rfl

theorem find?_map_entry {β γ : Type} (rs : List (String × β)) (F : String × β → γ)
    (c : String) :
    (rs.map (fun e => (e.1, F e))).find? (fun x => x.1 == c) =
      (rs.find? (fun e => e.1 == c)).map (fun e => (e.1, F e)) := by
  rw [List.find?_map]
  rfl

theorem incorrectFeedback_ne_correct (g : String) :
    incorrectFeedback g ≠ correctFeedback := by
  intro h
  have hl := congrArg String.length h
  rw [incorrectFeedback, correctFeedback, String.length_append, String.length_append] at hl
  have h1 : ("Prediction is incorrect. Correct answer: \"" : String).length = 42 := rfl
  have h2 : ("\"" : String).length = 1 := rfl
  have h3 : ("Prediction is correct." : String).length = 22 := rfl
  rw [h1, h2, h3] at hl
  omega

theorem evalFields_ok_mem (env : StaticEnvironment) (fuzzyFn : ℚ → String → String → Bool)
    (preds : DataFrame) :
    ∀ (fields : List String) (rs : List (String × Series Bool × Series String)),
      evalFields env fuzzyFn preds fields = .ok rs →
      ∀ e ∈ rs, e.1 ∈ fields ∧ processField env fuzzyFn preds e.1 = .ok (e.2.1, e.2.2) := by
  intro fields
  induction fields with
  | nil =>
    intro rs h e he
    rw [evalFields] at h
    cases h
    exact absurd he (List.not_mem_nil e)
  | cons f rest ih =>
    intro rs h e he
    rw [evalFields] at h
    cases hp : processField env fuzzyFn preds f with
    | error err => rw [hp] at h; exact absurd h (by simp)
    | ok r =>
      rw [hp] at h
      cases ht : evalFields env fuzzyFn preds rest with
      | error err => rw [ht] at h; exact absurd h (by simp)
      | ok rs' =>
        rw [ht] at h
        cases h
        rcases List.mem_cons.mp he with h1 | h1
        · subst h1
          exact ⟨List.mem_cons_self _ _, hp⟩
        · rcases ih rs' ht e h1 with ⟨hm, hpr⟩
          exact ⟨List.mem_cons_of_mem _ hm, hpr⟩

theorem evalFields_ok_names (env : StaticEnvironment) (fuzzyFn : ℚ → String → String → Bool)
    (preds : DataFrame) :
    ∀ (fields : List String) (rs : List (String × Series Bool × Series String)),
      evalFields env fuzzyFn preds fields = .ok rs → rs.map Prod.fst = fields := by
  intro fields
  induction fields with
  | nil => intro rs h; rw [evalFields] at h; cases h; rfl
  | cons f rest ih =>
    intro rs h
    rw [evalFields] at h
    cases hp : processField env fuzzyFn preds f with
    | error err => rw [hp] at h; exact absurd h (by simp)
    | ok r =>
      rw [hp] at h
      cases ht : evalFields env fuzzyFn preds rest with
      | error err => rw [ht] at h; exact absurd h (by simp)
      | ok rs' =>
        rw [ht] at h
        cases h
        simp [ih rs' ht]

theorem getFeedback_ok_inv {env : StaticEnvironment} {fuzzyFn : ℚ → String → String → Bool}
    {fields : List String} {preds : DataFrame} {nf : Option Nat}
    {res : EnvironmentFeedback}
    (h : getFeedback env fuzzyFn fields preds nf = .ok res) :
    ∃ preds' rs, sampleStep preds nf = .ok preds' ∧
      evalFields env fuzzyFn preds' fields = .ok rs ∧
      res = { index := preds'.index
              matchTable := rs.map (fun e => (e.1, reindexSeries e.2.1 preds'.index))
              feedbackTable := rs.map (fun e => (e.1, reindexSeries e.2.2 preds'.index)) } := by
  rw [getFeedback] at h
  split at h
  next err heq => exact absurd h (by simp)
  next preds' heq =>
    split at h
    next err heq2 => exact absurd h (by simp)
    next rs heq2 =>
      cases h
      exact ⟨preds', rs, heq, heq2, rfl⟩

theorem matchCell_mk (idx : List Nat) (mt : List (String × Series Bool))
    (ft : List (String × Series String)) (c : String) (r : Nat) :
    (EnvironmentFeedback.mk idx mt ft).matchCell c r =
      (mt.find? (fun e => e.1 == c)).elim none (fun e => scell e.2 r) := by
  rw [EnvironmentFeedback.matchCell]
  cases mt.find? (fun e => e.1 == c) <;> rfl

theorem feedbackCell_mk (idx : List Nat) (mt : List (String × Series Bool))
    (ft : List (String × Series String)) (c : String) (r : Nat) :
    (EnvironmentFeedback.mk idx mt ft).feedbackCell c r =
      (ft.find? (fun e => e.1 == c)).elim none (fun e => scell e.2 r) := by
  rw [EnvironmentFeedback.feedbackCell]
  cases ft.find? (fun e => e.1 == c) <;> rfl

theorem getFeedback_cells {env : StaticEnvironment} {fuzzyFn : ℚ → String → String → Bool}
    {fields : List String} {preds preds' : DataFrame} {nf : Option Nat}
    {res : EnvironmentFeedback}
    (hs : sampleStep preds nf = .ok preds')
    (hok : getFeedback env fuzzyFn fields preds nf = .ok res)
    {f : String} (hf : f ∈ fields) :
    res.index = preds'.index ∧
    ∃ m fb, processField env fuzzyFn preds' f = .ok (m, fb) ∧
      (∀ r, res.matchCell f r = scell (reindexSeries m preds'.index) r) ∧
      (∀ r, res.feedbackCell f r = scell (reindexSeries fb preds'.index) r) := by
  rcases getFeedback_ok_inv hok with ⟨p2, rs, hs2, ht, hres⟩
  rw [hs] at hs2
  cases hs2
  subst hres
  refine ⟨rfl, ?_⟩
  have hnames : rs.map Prod.fst = fields := evalFields_ok_names _ _ _ _ _ ht
  have hex : ∃ e ∈ rs, (fun e => e.1 == f) e = true := by
    rw [← hnames] at hf
    rcases List.mem_map.mp hf with ⟨e, he, hef⟩
    exact ⟨e, he, by simp [hef]⟩
  have hsome : (rs.find? (fun e => e.1 == f)).isSome := List.find?_isSome.mpr hex
  cases hfind : rs.find? (fun e => e.1 == f) with
  | none => rw [hfind] at hsome; exact absurd hsome (by simp)
  | some e =>
    have hmem := List.mem_of_find?_eq_some hfind
    have hef : e.1 = f := by simpa using List.find?_some hfind
    rcases evalFields_ok_mem _ _ _ _ _ ht e hmem with ⟨_, hpe⟩
    rw [hef] at hpe
    refine ⟨e.2.1, e.2.2, hpe, ?_, ?_⟩
    · intro r
      rw [matchCell_mk, find?_map_entry, hfind]
      rfl
    · intro r
      rw [feedbackCell_mk, find?_map_entry, hfind]
      rfl

theorem resolveMatching_unsupported {s : String} (h1 : s ≠ "exact") (h2 : s ≠ "fuzzy")
    (threshold : ℚ) (fuzzyFn : ℚ → String → String → Bool) :
    resolveMatching (.named s) threshold fuzzyFn =
      .error (.notImplementedError ("Unknown matching function " ++ s)) := by
  simp only [resolveMatching, if_neg h1, if_neg h2]

theorem processField_nopred {env : StaticEnvironment} {fuzzyFn : ℚ → String → String → Bool}
    {preds : DataFrame} {f : String}
    (hpred : preds.col f = none) :
    processField env fuzzyFn preds f = .error (.keyError f) := by
  unfold processField
  rw [hpred]

theorem processField_nogt {env : StaticEnvironment} {fuzzyFn : ℚ → String → String → Bool}
    {preds : DataFrame} {f : String} {pred : Series String}
    (hpred : preds.col f = some pred)
    (hgt : env.df.col (gtColumnOf env f) = none) :
    processField env fuzzyFn preds f =
      .ok (pred.map (fun e => (e.1, (none : Option Bool))),
           pred.map (fun e => (e.1, (none : Option String)))) := by
  unfold processField
  rw [hpred, hgt]

theorem processField_matched {env : StaticEnvironment} {fuzzyFn : ℚ → String → String → Bool}
    {preds : DataFrame} {f : String} {pred gt : Series String}
    {fn : String → String → Bool}
    (hpred : preds.col f = some pred)
    (hgt : env.df.col (gtColumnOf env f) = some gt)
    (hfn : resolveMatching env.matching_function env.matching_threshold fuzzyFn = .ok fn) :
    processField env fuzzyFn preds f =
      .ok ((bothNonnullPairs gt pred).map (fun e => (e.1, some (fn e.2.1 e.2.2))),
           (bothNonnullPairs gt pred).map (fun e =>
             (e.1, some (if fn e.2.1 e.2.2 then correctFeedback
                         else incorrectFeedback e.2.1)))) := by
  unfold processField
  rw [hpred, hgt, hfn]

theorem processField_badPolicy {env : StaticEnvironment} {fuzzyFn : ℚ → String → String → Bool}
    {preds : DataFrame} {f : String} {pred gt : Series String} {err : PyError}
    (hpred : preds.col f = some pred)
    (hgt : env.df.col (gtColumnOf env f) = some gt)
    (hfn : resolveMatching env.matching_function env.matching_threshold fuzzyFn = .error err) :
    processField env fuzzyFn preds f = .error err := by
  unfold processField
  rw [hpred, hgt, hfn]

theorem getFeedback_error_of_evalFields {env : StaticEnvironment}
    {fuzzyFn : ℚ → String → String → Bool} {fields : List String}
    {preds preds' : DataFrame} {nf : Option Nat} {err : PyError}
    (hs : sampleStep preds nf = .ok preds')
    (he : evalFields env fuzzyFn preds' fields = .error err) :
    getFeedback env fuzzyFn fields preds nf = .error err := by
  rw [getFeedback]
  split
  next e heq => rw [hs] at heq; exact absurd heq (by simp)
  next p2 heq =>
    rw [hs] at heq
    cases heq
    rw [he]

theorem getFeedback_ok_of_evalFields {env : StaticEnvironment}
    {fuzzyFn : ℚ → String → String → Bool} {fields : List String}
    {preds preds' : DataFrame} {nf : Option Nat}
    {rs : List (String × Series Bool × Series String)}
    (hs : sampleStep preds nf = .ok preds')
    (he : evalFields env fuzzyFn preds' fields = .ok rs) :
    getFeedback env fuzzyFn fields preds nf =
      .ok { index := preds'.index
            matchTable := rs.map (fun e => (e.1, reindexSeries e.2.1 preds'.index))
            feedbackTable := rs.map (fun e => (e.1, reindexSeries e.2.2 preds'.index)) } := by
  rw [getFeedback]
  split
  next e heq => rw [hs] at heq; exact absurd heq (by simp)
  next p2 heq =>
    rw [hs] at heq
    cases heq
    rw [he]

theorem skeys_reindex {α : Type} (s : Series α) (idx : List Nat) :
    skeys (reindexSeries s idx) = idx := by
  induction idx with
  | nil => rfl
  | cons k t ih =>
    simp only [reindexSeries, skeys, List.map_cons] at ih ⊢
    rw [ih]

theorem takeRows_col_none (df : DataFrame) (n : Nat) (c : String) :
    ((df.takeRows n).col c = none) ↔ (df.col c = none) := by
  rw [DataFrame.col, DataFrame.col, DataFrame.takeRows]
  dsimp only
  rw [find?_map_entry df.cols (fun e => e.2.take n) c]
  cases df.cols.find? (fun e => e.1 == c) <;> simp

theorem sampleStep_col_none {preds preds' : DataFrame} {nf : Option Nat}
    (hs : sampleStep preds nf = .ok preds') (c : String) :
    (preds'.col c = none) ↔ (preds.col c = none) := by
  cases nf with
  | none =>
    rw [sampleStep] at hs
    cases hs
    exact Iff.rfl
  | some n =>
    rw [sampleStep] at hs
    by_cases hn : n ≤ preds.index.length
    · rw [if_pos hn] at hs
      cases hs
      exact takeRows_col_none preds n c
    · rw [if_neg hn] at hs
      exact absurd hs (by simp)

theorem mem_index_of_col {df : DataFrame} {c : String} {pred : Series String}
    (h : df.col c = some pred) {r : Nat} (hr : r ∈ skeys pred) : r ∈ df.index := by
  rw [DataFrame.col] at h
  cases hf : df.cols.find? (fun e => e.1 == c) with
  | none => rw [hf] at h; exact absurd h (by simp)
  | some e =>
    rw [hf, Option.map_some'] at h
    injection h with h
    subst h
    rw [skeys] at hr
    rcases List.mem_map.mp hr with ⟨x, hx, hxr⟩
    obtain ⟨x1, x2⟩ := x
    cases hxr
    exact (List.of_mem_zip hx).1

example : getFeedback exactEnv constFuzzy ["label"] examplePreds none = .ok exampleRes := by
  rfl

example : getFeedback exactEnv constFuzzy ["color"] colorPreds none = .ok unknownColorRes := by
  rfl

example : getFeedback mixedEnv constFuzzy ["label"] mixedPreds none = .ok mixedRes := by
  rfl

/-- C1: for every evaluate call and every output field whose reference column
name, resolved via the mapping with fallback to the field's own name, is absent
from the reference table's columns, the whole match column and the whole
feedback column for that field are unknown at every row, whatever the
prediction values. -/
theorem c1_missing_reference_column_all_unknown
    (env : StaticEnvironment) (fuzzyFn : ℚ → String → String → Bool)
    (fields : List String) (preds : DataFrame) (nf : Option Nat)
    (res : EnvironmentFeedback)
    (hok : getFeedback env fuzzyFn fields preds nf = .ok res)
    (f : String) (hf : f ∈ fields)
    (hgt : env.df.col (gtColumnOf env f) = none) (r : Nat) :
    res.matchCell f r = none ∧ res.feedbackCell f r = none := by
  rcases getFeedback_ok_inv hok with ⟨preds', rs, hs, ht, hres⟩
  clear hres
  rcases getFeedback_cells hs hok hf with ⟨hidx, m, fb, hpf, hm, hfb⟩
  cases hpred : preds'.col f with
  | none => rw [processField_nopred hpred] at hpf; exact absurd hpf (by simp)
  | some pred =>
    rw [processField_nogt hpred hgt] at hpf
    injection hpf with hpf
    injection hpf with h1 h2
    constructor
    · rw [hm r, scell_reindex, ← h1]
      by_cases hr : r ∈ preds'.index
      · rw [if_pos hr]
        exact scell_const_none _ _
      · rw [if_neg hr]
    · rw [hfb r, scell_reindex, ← h2]
      by_cases hr : r ∈ preds'.index
      · rw [if_pos hr]
        exact scell_const_none _ _
      · rw [if_neg hr]

/-- C1 at a concrete input: the `color` field has no reference column, so both
cells are unknown. -/
theorem c1_missing_reference_column_all_unknown_witness :
    unknownColorRes.matchCell "color" 1 = none ∧
    unknownColorRes.feedbackCell "color" 1 = none :=
  c1_missing_reference_column_all_unknown exactEnv constFuzzy ["color"] colorPreds none
    unknownColorRes rfl "color" (by decide) rfl 1

/-- C2: for every evaluate call and every output field whose resolved
reference column exists, every row where, after outer alignment, either the
reference value or the prediction value is null gets unknown match and
feedback cells. -/
theorem c2_null_after_alignment_unknown
    (env : StaticEnvironment) (fuzzyFn : ℚ → String → String → Bool)
    (fields : List String) (preds preds' : DataFrame) (nf : Option Nat)
    (res : EnvironmentFeedback)
    (hs : sampleStep preds nf = .ok preds')
    (hok : getFeedback env fuzzyFn fields preds nf = .ok res)
    (f : String) (hf : f ∈ fields)
    (gt : Series String) (hgt : env.df.col (gtColumnOf env f) = some gt)
    (pred : Series String) (hpred : preds'.col f = some pred)
    (r : Nat) (hnull : scell gt r = none ∨ scell pred r = none) :
    res.matchCell f r = none ∧ res.feedbackCell f r = none := by
  rcases getFeedback_cells hs hok hf with ⟨hidx, m, fb, hpf, hm, hfb⟩
  cases hresolve : resolveMatching env.matching_function env.matching_threshold fuzzyFn with
  | error err =>
    rw [processField_badPolicy hpred hgt hresolve] at hpf
    exact absurd hpf (by simp)
  | ok fn =>
    rw [processField_matched hpred hgt hresolve] at hpf
    injection hpf with hpf
    injection hpf with h1 h2
    have hfind : (bothNonnullPairs gt pred).find? (fun e => e.1 == r) = none := by
      cases hq : (bothNonnullPairs gt pred).find? (fun e => e.1 == r) with
      | none => rfl
      | some e =>
        have hmem := bothNonnullPairs_mem (List.mem_of_find?_eq_some hq)
        have he1 : e.1 = r := by simpa using List.find?_some hq
        rw [he1] at hmem
        rcases hnull with hn | hn
        · rw [hn] at hmem; exact absurd hmem.1 (by simp)
        · rw [hn] at hmem; exact absurd hmem.2 (by simp)
    constructor
    · rw [hm r, scell_reindex, ← h1]
      by_cases hr : r ∈ preds'.index
      · rw [if_pos hr, scell_map_entry, hfind]
        rfl
      · rw [if_neg hr]
    · rw [hfb r, scell_reindex, ← h2]
      by_cases hr : r ∈ preds'.index
      · rw [if_pos hr, scell_map_entry, hfind]
        rfl
      · rw [if_neg hr]

/-- C2 at a concrete input: row 2 has a null reference value after alignment,
so both cells are unknown. -/
theorem c2_null_after_alignment_unknown_witness :
    mixedRes.matchCell "label" 2 = none ∧ mixedRes.feedbackCell "label" 2 = none :=
  c2_null_after_alignment_unknown mixedEnv constFuzzy ["label"] mixedPreds mixedPreds none
    mixedRes rfl rfl "label" (by decide)
    [(1, some "cat"), (2, none), (3, some "dog")] rfl
    [(1, some "cat"), (2, some "x"), (4, some "y")] rfl
    2 (Or.inl rfl)

/-- C3: for every field and row of the result, the match cell is true exactly
when the feedback cell is the correct-prediction string, false exactly when
the feedback cell is the incorrect-prediction string quoting the reference
value, and unknown exactly when the feedback cell is unknown. -/
theorem c3_match_feedback_correspondence
    (env : StaticEnvironment) (fuzzyFn : ℚ → String → String → Bool)
    (fields : List String) (preds : DataFrame) (nf : Option Nat)
    (res : EnvironmentFeedback)
    (hok : getFeedback env fuzzyFn fields preds nf = .ok res)
    (f : String) (hf : f ∈ fields) (r : Nat) :
    (res.matchCell f r = some true ↔ res.feedbackCell f r = some correctFeedback) ∧
    (res.matchCell f r = some false ↔
      ∃ g gt, env.df.col (gtColumnOf env f) = some gt ∧ scell gt r = some g ∧
        res.feedbackCell f r = some (incorrectFeedback g)) ∧
    (res.matchCell f r = none ↔ res.feedbackCell f r = none) := by
  rcases getFeedback_ok_inv hok with ⟨preds', rs, hs, ht, hres⟩
  clear hres
  rcases getFeedback_cells hs hok hf with ⟨hidx, m, fb, hpf, hm, hfb⟩
  rw [hm r, hfb r, scell_reindex, scell_reindex]
  by_cases hr : r ∈ preds'.index
  case neg =>
    rw [if_neg hr, if_neg hr]
    refine ⟨by simp, ?_, ⟨fun _ => rfl, fun _ => rfl⟩⟩
    constructor
    · intro h; exact absurd h (by simp)
    · rintro ⟨g, gt, _, _, hfbeq⟩; exact absurd hfbeq (by simp)
  case pos =>
    rw [if_pos hr, if_pos hr]
    cases hpredcol : preds'.col f with
    | none => rw [processField_nopred hpredcol] at hpf; exact absurd hpf (by simp)
    | some pred =>
      cases hgtcol : env.df.col (gtColumnOf env f) with
      | none =>
        rw [processField_nogt hpredcol hgtcol] at hpf
        injection hpf with hpf
        injection hpf with h1 h2
        rw [← h1, ← h2, scell_const_none, scell_const_none]
        refine ⟨by simp, ?_, ⟨fun _ => rfl, fun _ => rfl⟩⟩
        constructor
        · intro h; exact absurd h (by simp)
        · rintro ⟨g, gt, hgt, _, _⟩; exact absurd hgt (by simp)
      | some gt =>
        cases hresolve : resolveMatching env.matching_function env.matching_threshold fuzzyFn with
        | error err =>
          rw [processField_badPolicy hpredcol hgtcol hresolve] at hpf
          exact absurd hpf (by simp)
        | ok fn =>
          rw [processField_matched hpredcol hgtcol hresolve] at hpf
          injection hpf with hpf
          injection hpf with h1 h2
          rw [← h1, ← h2, scell_map_entry, scell_map_entry]
          cases hq : (bothNonnullPairs gt pred).find? (fun e => e.1 == r) with
          | none =>
            refine ⟨by simp, ?_, ⟨fun _ => rfl, fun _ => rfl⟩⟩
            constructor
            · intro h; exact absurd h (by simp)
            · rintro ⟨g, gt2, _, _, hfbeq⟩; exact absurd hfbeq (by simp)
          | some e =>
            obtain ⟨e1, e2, e3⟩ := e
            have hmem := bothNonnullPairs_mem (List.mem_of_find?_eq_some hq)
            have he1 : e1 = r := by simpa using List.find?_some hq
            subst he1
            simp only [Option.elim_some]
            dsimp only at hmem ⊢
            cases hb : fn e2 e3 with
            | true =>
              refine ⟨by simp, ?_, by simp⟩
              constructor
              · intro h; exact absurd h (by simp)
              · rintro ⟨g, gt2, hgt2, hgr, hfbeq⟩
                rw [if_pos rfl] at hfbeq
                exact absurd (Option.some.inj hfbeq).symm (incorrectFeedback_ne_correct g)
            | false =>
              refine ⟨?_, ?_, by simp⟩
              · constructor
                · intro h; exact absurd h (by simp)
                · intro h
                  rw [if_neg (by simp)] at h
                  exact absurd (Option.some.inj h) (incorrectFeedback_ne_correct e2)
              · constructor
                · intro _
                  refine ⟨e2, gt, rfl, hmem.1, ?_⟩
                  rw [if_neg (by simp)]
                · intro _
                  rfl

/-- C3 at a concrete input: the incorrect row of the worked example. -/
theorem c3_match_feedback_correspondence_witness :
    (exampleRes.matchCell "label" 2 = some true ↔
      exampleRes.feedbackCell "label" 2 = some correctFeedback) ∧
    (exampleRes.matchCell "label" 2 = some false ↔
      ∃ g gt, exactEnv.df.col (gtColumnOf exactEnv "label") = some gt ∧
        scell gt 2 = some g ∧
        exampleRes.feedbackCell "label" 2 = some (incorrectFeedback g)) ∧
    (exampleRes.matchCell "label" 2 = none ↔ exampleRes.feedbackCell "label" 2 = none) :=
  c3_match_feedback_correspondence exactEnv constFuzzy ["label"] examplePreds none
    exampleRes rfl "label" (by decide) 2

/-- C4: for every evaluate call that returns a result, the row index of both
result tables equals the row index of the (possibly sampled) predictions
table exactly: no rows added or dropped, extra reference rows never appear. -/
theorem c4_result_index_equals_predictions_index
    (env : StaticEnvironment) (fuzzyFn : ℚ → String → String → Bool)
    (fields : List String) (preds preds' : DataFrame) (nf : Option Nat)
    (res : EnvironmentFeedback)
    (hs : sampleStep preds nf = .ok preds')
    (hok : getFeedback env fuzzyFn fields preds nf = .ok res) :
    res.index = preds'.index ∧
    (∀ e ∈ res.matchTable, skeys e.2 = preds'.index) ∧
    (∀ e ∈ res.feedbackTable, skeys e.2 = preds'.index) := by
  rcases getFeedback_ok_inv hok with ⟨p2, rs, hs2, ht, hres⟩
  rw [hs] at hs2
  cases hs2
  subst hres
  refine ⟨rfl, ?_, ?_⟩
  · intro e he
    rcases List.mem_map.mp he with ⟨x, hx, hxe⟩
    cases hxe
    exact skeys_reindex _ _
  · intro e he
    rcases List.mem_map.mp he with ⟨x, hx, hxe⟩
    cases hxe
    exact skeys_reindex _ _

/-- C4 at a concrete input: the worked example keeps the prediction index. -/
theorem c4_result_index_equals_predictions_index_witness :
    exampleRes.index = examplePreds.index ∧
    (∀ e ∈ exampleRes.matchTable, skeys e.2 = examplePreds.index) ∧
    (∀ e ∈ exampleRes.feedbackTable, skeys e.2 = examplePreds.index) :=
  c4_result_index_equals_predictions_index exactEnv constFuzzy ["label"] examplePreds
    examplePreds none exampleRes rfl rfl

/-- C5 as frozen is refuted here: with the unsupported policy name "regex" but
an output field whose reference column is absent, evaluate returns a result
instead of raising. -/
theorem c5_unsupported_policy_counterexample :
    getFeedback regexEnv constFuzzy ["color"] colorPreds none = .ok unknownColorRes := by
  rfl

theorem evalFields_unsupported (env : StaticEnvironment)
    (fuzzyFn : ℚ → String → String → Bool) (preds : DataFrame)
    {s : String} (hname : env.matching_function = .named s)
    (h1 : s ≠ "exact") (h2 : s ≠ "fuzzy") :
    ∀ (fields : List String),
      (∀ f ∈ fields, preds.col f ≠ none) →
      (∃ f ∈ fields, env.df.col (gtColumnOf env f) ≠ none) →
      evalFields env fuzzyFn preds fields =
        .error (.notImplementedError ("Unknown matching function " ++ s)) := by
  intro fields
  induction fields with
  | nil =>
    rintro _ ⟨f, hf, _⟩
    exact absurd hf (List.not_mem_nil f)
  | cons f rest ih =>
    intro hcols hex
    have hresolve : resolveMatching env.matching_function env.matching_threshold fuzzyFn
        = .error (.notImplementedError ("Unknown matching function " ++ s)) := by
      rw [hname]
      exact resolveMatching_unsupported h1 h2 _ _
    cases hpred : preds.col f with
    | none => exact absurd hpred (hcols f (List.mem_cons_self f rest))
    | some pred =>
      cases hgt : env.df.col (gtColumnOf env f) with
      | some gt =>
        rw [evalFields, processField_badPolicy hpred hgt hresolve]
      | none =>
        have hex2 : ∃ g ∈ rest, env.df.col (gtColumnOf env g) ≠ none := by
          rcases hex with ⟨g, hg, hgne⟩
          rcases List.mem_cons.mp hg with hcase | hcase
          · subst hcase; exact absurd hgt hgne
          · exact ⟨g, hcase, hgne⟩
        rw [evalFields, processField_nogt hpred hgt,
          ih (fun g hg => hcols g (List.mem_cons_of_mem _ hg)) hex2]

/-- C5 amended: with an unsupported policy name, if every output field is
present in the predictions and some output field's resolved reference column
exists in the reference table, evaluate raises the unsupported-matching
configuration error and returns no result. -/
theorem c5_unsupported_policy_raises_when_reached
    (env : StaticEnvironment) (fuzzyFn : ℚ → String → String → Bool)
    (fields : List String) (preds preds' : DataFrame) (nf : Option Nat)
    (s : String)
    (hs : sampleStep preds nf = .ok preds')
    (hname : env.matching_function = .named s)
    (h1 : s ≠ "exact") (h2 : s ≠ "fuzzy")
    (hcols : ∀ f ∈ fields, preds'.col f ≠ none)
    (hex : ∃ f ∈ fields, env.df.col (gtColumnOf env f) ≠ none) :
    getFeedback env fuzzyFn fields preds nf =
      .error (.notImplementedError ("Unknown matching function " ++ s)) :=
  getFeedback_error_of_evalFields hs
    (evalFields_unsupported env fuzzyFn preds' hname h1 h2 fields hcols hex)

/-- C5 amended at a concrete input: the "regex" policy raises once the `label`
field reaches the comparison step. -/
theorem c5_unsupported_policy_raises_when_reached_witness :
    getFeedback regexEnv constFuzzy ["label"] examplePreds none =
      .error (.notImplementedError ("Unknown matching function " ++ "regex")) :=
  c5_unsupported_policy_raises_when_reached regexEnv constFuzzy ["label"] examplePreds
    examplePreds none "regex" rfl rfl (by decide) (by decide) (by decide)
    ⟨"label", by decide, by decide⟩

/-- C6: with the exact policy, for every aligned row where both the reference
and the prediction values are non-null, the match cell is true exactly when
the two values are structurally equal. -/
theorem c6_exact_match_iff_equal
    (env : StaticEnvironment) (fuzzyFn : ℚ → String → String → Bool)
    (fields : List String) (preds preds' : DataFrame) (nf : Option Nat)
    (res : EnvironmentFeedback)
    (hs : sampleStep preds nf = .ok preds')
    (hok : getFeedback env fuzzyFn fields preds nf = .ok res)
    (hexact : env.matching_function = .named "exact")
    (f : String) (hf : f ∈ fields)
    (gt : Series String) (hgt : env.df.col (gtColumnOf env f) = some gt)
    (pred : Series String) (hpred : preds'.col f = some pred)
    (r : Nat) (g p : String)
    (hg : scell gt r = some g) (hp : scell pred r = some p) :
    res.matchCell f r = some true ↔ g = p := by
  rcases getFeedback_cells hs hok hf with ⟨hidx, m, fb, hpf, hm, hfb⟩
  have hfn : resolveMatching env.matching_function env.matching_threshold fuzzyFn
      = .ok (fun a b => a == b) := by
    rw [hexact]
    rfl
  rw [processField_matched hpred hgt hfn] at hpf
  injection hpf with hpf
  injection hpf with h1 h2
  have hr : r ∈ preds'.index :=
    mem_index_of_col hpred (mem_skeys_of_scell hp)
  rw [hm r, scell_reindex, if_pos hr, ← h1, scell_map_entry,
    find?_bothNonnullPairs hg hp]
  simp

/-- C6 at a concrete input: the correct row of the worked example. -/
theorem c6_exact_match_iff_equal_witness :
    exampleRes.matchCell "label" 1 = some true ↔ "cat" = "cat" :=
  c6_exact_match_iff_equal exactEnv constFuzzy ["label"] examplePreds examplePreds none
    exampleRes rfl rfl rfl "label" (by decide)
    [(1, some "cat"), (2, some "dog")] rfl
    [(1, some "cat"), (2, some "doge")] rfl
    1 "cat" "cat" rfl rfl

theorem evalFields_keyError (env : StaticEnvironment)
    (fuzzyFn : ℚ → String → String → Bool) (preds : DataFrame)
    (hpol : ∃ fn, resolveMatching env.matching_function env.matching_threshold fuzzyFn
      = .ok fn) :
    ∀ (fields : List String), (∃ f ∈ fields, preds.col f = none) →
      ∃ c, evalFields env fuzzyFn preds fields = .error (.keyError c) ∧
        preds.col c = none := by
  intro fields
  induction fields with
  | nil =>
    rintro ⟨f, hf, _⟩
    exact absurd hf (List.not_mem_nil f)
  | cons f rest ih =>
    rintro ⟨g, hg, hgnone⟩
    cases hpred : preds.col f with
    | none =>
      refine ⟨f, ?_, hpred⟩
      rw [evalFields, processField_nopred hpred]
    | some pred =>
      have hgrest : g ∈ rest := by
        rcases List.mem_cons.mp hg with hcase | hcase
        · subst hcase; rw [hpred] at hgnone; exact absurd hgnone (by simp)
        · exact hcase
      rcases ih ⟨g, hgrest, hgnone⟩ with ⟨c, hc, hcnone⟩
      refine ⟨c, ?_, hcnone⟩
      cases hgt : env.df.col (gtColumnOf env f) with
      | none =>
        rw [evalFields, processField_nogt hpred hgt, hc]
      | some gt =>
        rcases hpol with ⟨fn, hfn⟩
        rw [evalFields, processField_matched hpred hgt hfn, hc]

/-- C7: when some output field is absent from the predictions table's columns
(and the policy is supported and sampling succeeds), evaluate fails with the
missing-input-column error, even though a missing reference column is
tolerated. -/
theorem c7_missing_prediction_column_fatal
    (env : StaticEnvironment) (fuzzyFn : ℚ → String → String → Bool)
    (fields : List String) (preds preds' : DataFrame) (nf : Option Nat)
    (hs : sampleStep preds nf = .ok preds')
    (hpol : ∃ fn, resolveMatching env.matching_function env.matching_threshold fuzzyFn
      = .ok fn)
    (f : String) (hf : f ∈ fields) (hmiss : preds.col f = none) :
    ∃ c, getFeedback env fuzzyFn fields preds nf = .error (.keyError c) ∧
      preds.col c = none := by
  have hmiss2 : preds'.col f = none := (sampleStep_col_none hs f).mpr hmiss
  rcases evalFields_keyError env fuzzyFn preds' hpol fields ⟨f, hf, hmiss2⟩
    with ⟨c, hc, hcnone⟩
  exact ⟨c, getFeedback_error_of_evalFields hs hc, (sampleStep_col_none hs c).mp hcnone⟩

/-- C7 at a concrete input: the `size` field is missing from the predictions
and evaluate raises the key error. -/
theorem c7_missing_prediction_column_fatal_witness :
    ∃ c, getFeedback exactEnv constFuzzy ["label", "size"] examplePreds none =
      .error (.keyError c) ∧ examplePreds.col c = none :=
  c7_missing_prediction_column_fatal exactEnv constFuzzy ["label", "size"] examplePreds
    examplePreds none rfl ⟨fun a b => a == b, rfl⟩ "size" (by decide) rfl

/-- C8: requesting a sample larger than the table being sampled raises the
pandas sampling error — for evaluate whenever the size exceeds the
predictions' rows, and independently for the data-batch operation whenever
the size exceeds the reference table's rows. -/
theorem c8_oversized_sample_raises
    (env : StaticEnvironment) (fuzzyFn : ℚ → String → String → Bool)
    (fields : List String) (preds : DataFrame) (n : Nat) :
    (preds.index.length < n →
      getFeedback env fuzzyFn fields preds (some n) =
        .error (.valueError sampleErrorMsg)) ∧
    (env.df.index.length < n →
      getDataBatch env (some n) = .error (.valueError sampleErrorMsg)) := by
  constructor
  · intro h1
    rw [getFeedback]
    split
    next err heq =>
      rw [sampleStep, if_neg (by omega)] at heq
      injection heq with heq
      rw [heq]
    next p2 heq =>
      rw [sampleStep, if_neg (by omega)] at heq
      exact absurd heq (by simp)
  · intro h2
    rw [getDataBatch, if_neg (by omega)]

/-- C8 at a concrete input: sampling five rows from two-row tables fails, on
each operation separately. -/
theorem c8_oversized_sample_raises_witness :
    getFeedback exactEnv constFuzzy ["label"] examplePreds (some 5) =
      .error (.valueError sampleErrorMsg) ∧
    getDataBatch exactEnv (some 5) = .error (.valueError sampleErrorMsg) :=
  ⟨(c8_oversized_sample_raises exactEnv constFuzzy ["label"] examplePreds 5).1
      (by decide),
   (c8_oversized_sample_raises exactEnv constFuzzy ["label"] examplePreds 5).2
      (by decide)⟩

/-- C9: save and restore raise the unsupported-operation error unconditionally
and never return a value. -/
theorem c9_save_restore_always_raise (env : StaticEnvironment) :
    env.save = .error
      (.notImplementedError "StaticEnvironment does not support save/restore.") ∧
    env.restore = .error
      (.notImplementedError "StaticEnvironment does not support save/restore.") :=
  ⟨rfl, rfl⟩

theorem evalFields_all_nogt (env : StaticEnvironment)
    (fuzzyFn : ℚ → String → String → Bool) (preds : DataFrame) :
    ∀ (fields : List String),
      (∀ f ∈ fields, preds.col f ≠ none) →
      (∀ f ∈ fields, env.df.col (gtColumnOf env f) = none) →
      ∃ rs, evalFields env fuzzyFn preds fields = .ok rs := by
  intro fields
  induction fields with
  | nil => exact fun _ _ => ⟨[], rfl⟩
  | cons f rest ih =>
    intro hcols hnogt
    cases hpred : preds.col f with
    | none => exact absurd hpred (hcols f (List.mem_cons_self f rest))
    | some pred =>
      rcases ih (fun g hg => hcols g (List.mem_cons_of_mem _ hg))
        (fun g hg => hnogt g (List.mem_cons_of_mem _ hg)) with ⟨rs, hrs⟩
      refine ⟨(f, pred.map (fun e => (e.1, (none : Option Bool))),
               pred.map (fun e => (e.1, (none : Option String)))) :: rs, ?_⟩
      rw [evalFields, processField_nogt hpred (hnogt f (List.mem_cons_self f rest)), hrs]

/-- C10: when the matching policy is an unsupported named string but every
output field's resolved reference column is absent from the reference table,
evaluate does not raise: it returns a fully-unknown result table. -/
theorem c10_unsupported_policy_unreached_returns_unknown
    (env : StaticEnvironment) (fuzzyFn : ℚ → String → String → Bool)
    (fields : List String) (preds preds' : DataFrame) (nf : Option Nat)
    (s : String)
    (hs : sampleStep preds nf = .ok preds')
    (_hname : env.matching_function = .named s)
    (_h1 : s ≠ "exact") (_h2 : s ≠ "fuzzy")
    (hcols : ∀ f ∈ fields, preds'.col f ≠ none)
    (hnogt : ∀ f ∈ fields, env.df.col (gtColumnOf env f) = none) :
    ∃ res, getFeedback env fuzzyFn fields preds nf = .ok res ∧
      ∀ f r, res.matchCell f r = none ∧ res.feedbackCell f r = none := by
  rcases evalFields_all_nogt env fuzzyFn preds' fields hcols hnogt with ⟨rs, hrs⟩
  refine ⟨_, getFeedback_ok_of_evalFields hs hrs, ?_⟩
  intro f r
  constructor
  · rw [matchCell_mk, find?_map_entry]
    cases hq : rs.find? (fun e => e.1 == f) with
    | none => rfl
    | some e =>
      rcases evalFields_ok_mem _ _ _ _ _ hrs e (List.mem_of_find?_eq_some hq)
        with ⟨hfe, hpe⟩
      cases hpred : preds'.col e.1 with
      | none => exact absurd hpred (hcols e.1 hfe)
      | some pred =>
        rw [processField_nogt hpred (hnogt e.1 hfe)] at hpe
        injection hpe with hpe
        injection hpe with hh1 hh2
        show scell (reindexSeries e.2.1 preds'.index) r = none
        rw [scell_reindex, ← hh1]
        by_cases hr : r ∈ preds'.index
        · rw [if_pos hr]
          exact scell_const_none _ _
        · rw [if_neg hr]
  · rw [feedbackCell_mk, find?_map_entry]
    cases hq : rs.find? (fun e => e.1 == f) with
    | none => rfl
    | some e =>
      rcases evalFields_ok_mem _ _ _ _ _ hrs e (List.mem_of_find?_eq_some hq)
        with ⟨hfe, hpe⟩
      cases hpred : preds'.col e.1 with
      | none => exact absurd hpred (hcols e.1 hfe)
      | some pred =>
        rw [processField_nogt hpred (hnogt e.1 hfe)] at hpe
        injection hpe with hpe
        injection hpe with hh1 hh2
        show scell (reindexSeries e.2.2 preds'.index) r = none
        rw [scell_reindex, ← hh2]
        by_cases hr : r ∈ preds'.index
        · rw [if_pos hr]
          exact scell_const_none _ _
        · rw [if_neg hr]

/-- C10 at a concrete input: policy "regex" with the `color` field unmapped in
the reference table returns a fully-unknown result instead of raising. -/
theorem c10_unsupported_policy_unreached_returns_unknown_witness :
    ∃ res, getFeedback regexEnv constFuzzy ["color"] colorPreds none = .ok res ∧
      ∀ f r, res.matchCell f r = none ∧ res.feedbackCell f r = none :=
  c10_unsupported_policy_unreached_returns_unknown regexEnv constFuzzy ["color"]
    colorPreds colorPreds none "regex" rfl rfl (by decide) (by decide)
    (by decide) (by decide)

end Adala
